import Mathlib

/-!
Verification development for the product-catalog backend
(controllers `admin/product/product.js`, `customer/customerproduct.js`,
model `brand/brand.js`).

Conventions of the shallow embedding:
- JS strings are Lean `String` / `List Char`; ids (Mongo ObjectIds rendered
  through `toString`) are Lean `String`s.
- Decimal numbers carried by requests and documents are modelled as `ℚ`.
- Absent / `undefined` / falsy-empty request fields are `Option.none`.
- The document store is an explicit `Store` record of collection lists; a
  Mongo `$inc` update is an explicit list map; the driver's transactional
  session is modelled by its contract: a committed unit applies all of its
  operations, an aborted unit leaves the store exactly as it was.
-/

namespace Catalog

/-! ## Slug normalization

Embeds the expression
`name.toLowerCase().replace(/[^a-z0-9]+/g, '-').replace(/^-+|-+$/g, '')`
used in `createProduct` (product.js:264), `updateProduct` (product.js:658),
tag/collection parsing, and `BrandSchema.pre('save')` (brand.js:48-51). -/

/-- Character class `[a-z0-9]` of the replacement regex.
Codes: 97-122 are `a`-`z`, 48-57 are `0`-`9`. -/
def isAlnumLower (c : Char) : Bool :=
  (97 ≤ c.toNat && c.toNat ≤ 122) || (48 ≤ c.toNat && c.toNat ≤ 57)

/-- Model of JS `String.prototype.toLowerCase` as a character map
(65-90 are `A`-`Z`; the ASCII behaviour, which is all the slug pipeline
depends on). -/
def jsToLower (c : Char) : Char :=
  if 65 ≤ c.toNat && c.toNat ≤ 90 then Char.ofNat (c.toNat + 32) else c

/-- `.replace(/[^a-z0-9]+/g, '-')`: every maximal run of characters outside
`[a-z0-9]` becomes a single hyphen. -/
def collapseNonAlnum : List Char → List Char
  | [] => []
  | [c] => if isAlnumLower c then [c] else ['-']
  | c :: d :: cs =>
    if isAlnumLower c then c :: collapseNonAlnum (d :: cs)
    else if isAlnumLower d then '-' :: collapseNonAlnum (d :: cs)
    else collapseNonAlnum (d :: cs)

/-- `-+$` part of `.replace(/^-+|-+$/g, '')`: remove the trailing run of
hyphens. -/
def dropTrailingHyphens : List Char → List Char
  | [] => []
  | c :: cs =>
    match dropTrailingHyphens cs with
    | [] => if c == '-' then [] else [c]
    | t => c :: t

/-- The full slug pipeline on character lists: lowercase, collapse non-alnum
runs to single hyphens, strip leading and trailing hyphens. -/
def normalizeSlug (s : List Char) : List Char :=
  dropTrailingHyphens ((collapseNonAlnum (s.map jsToLower)).dropWhile (fun c => c == '-'))

/-- The slug pipeline on `String`s, as used for product/brand slugs. -/
def slugOfName (s : String) : String :=
  String.mk (normalizeSlug s.data)

/-! DFA for the regex `^[a-z0-9]+(-[a-z0-9]+)*$` of the spec's slug-shape
property: `slugCore` accepts exactly the words of the regex; `slugRest`
accepts the residual language after an alphanumeric character. -/

mutual

def slugCore : List Char → Bool
  | [] => false
  | c :: cs => isAlnumLower c && slugRest cs

def slugRest : List Char → Bool
  | [] => true
  | c :: cs => if isAlnumLower c then slugRest cs else c == '-' && slugCore cs

end

example : slugCore "abc-12-x".data = true := by decide
example : slugCore "-abc".data = false := by decide
example : slugCore "ab--c".data = false := by decide
example : normalizeSlug "  Hello,  World!! 42 ".data = "hello-world-42".data := by decide
example : normalizeSlug "!!!".data = [] := by decide

/-! Structural invariants of the pipeline stages. -/

/-- Characters that can appear in a collapsed string: `[a-z0-9]` or `-`. -/
def isSlugTokenChar (c : Char) : Bool :=
  isAlnumLower c || c == '-'

/-- Every character is in the slug alphabet. -/
def okChars (l : List Char) : Bool :=
  l.all isSlugTokenChar

/-- No two adjacent hyphens. -/
def noDouble : List Char → Bool
  | [] => true
  | [_] => true
  | c :: d :: cs => !(c == '-' && d == '-') && noDouble (d :: cs)

/-- The last character, if any, is not a hyphen. -/
def noTrailHyphen : List Char → Bool
  | [] => true
  | [c] => !(c == '-')
  | _ :: d :: cs => noTrailHyphen (d :: cs)

theorem isAlnumLower_ne_hyphen {c : Char} (h : isAlnumLower c = true) :
    (c == '-') = false := by
  rw [beq_eq_false_iff_ne]
  intro hc
  subst hc
  simp [isAlnumLower] at h

theorem noDouble_tail {c : Char} {cs : List Char} (h : noDouble (c :: cs) = true) :
    noDouble cs = true := by
  cases cs with
  | nil => rfl
  | cons d ds => simp [noDouble] at h; exact h.2

theorem head_collapse_alnum {d : Char} (cs : List Char) (h : isAlnumLower d = true) :
    ∃ t, collapseNonAlnum (d :: cs) = d :: t := by
  cases cs with
  | nil => exact ⟨[], by simp [collapseNonAlnum, h]⟩
  | cons e es => exact ⟨collapseNonAlnum (e :: es), by simp [collapseNonAlnum, h]⟩

theorem okChars_collapse (l : List Char) : okChars (collapseNonAlnum l) = true := by
  induction l using collapseNonAlnum.induct with
  | case1 => rfl
  | case2 c h => simp [collapseNonAlnum, h, okChars, isSlugTokenChar]
  | case3 c h => simp [collapseNonAlnum, h, okChars, isSlugTokenChar]
  | case4 c d cs hc ih =>
    have hct : isSlugTokenChar c = true := by simp [isSlugTokenChar, hc]
    simp only [collapseNonAlnum, hc, if_pos, okChars, List.all_cons, Bool.and_eq_true] at ih ⊢
    exact ⟨hct, ih⟩
  | case5 c d cs hc hd ih =>
    simp only [collapseNonAlnum, hc, hd, if_neg, if_pos, not_false_eq_true, okChars,
      List.all_cons, Bool.and_eq_true] at ih ⊢
    exact ih
  | case6 c d cs hc hd ih =>
    simp only [collapseNonAlnum, hc, hd, if_neg, not_false_eq_true]
    simpa [hc, hd] using ih

theorem noDouble_collapse (l : List Char) : noDouble (collapseNonAlnum l) = true := by
  induction l using collapseNonAlnum.induct with
  | case1 => rfl
  | case2 c h => simp [collapseNonAlnum, h, noDouble]
  | case3 c h => simp [collapseNonAlnum, h, noDouble]
  | case4 c d cs hc ih =>
    simp only [collapseNonAlnum, hc, if_pos]
    rcases hx : collapseNonAlnum (d :: cs) with _ | ⟨x, xs⟩
    · simp [noDouble]
    · rw [hx] at ih
      simp [noDouble, isAlnumLower_ne_hyphen hc, ih]
  | case5 c d cs hc hd ih =>
    simp only [collapseNonAlnum, hc, hd, if_neg, if_pos, not_false_eq_true]
    obtain ⟨t, ht⟩ := head_collapse_alnum cs hd
    rw [ht] at ih ⊢
    simp [noDouble, isAlnumLower_ne_hyphen hd, ih]
  | case6 c d cs hc hd ih =>
    simp only [collapseNonAlnum, hc, hd, if_neg, not_false_eq_true]
    simpa [hc, hd] using ih

theorem okChars_tail {c : Char} {cs : List Char} (h : okChars (c :: cs) = true) :
    okChars cs = true := by
  simp only [okChars, List.all_cons, Bool.and_eq_true] at h
  exact h.2

theorem okChars_dropWhile (p : Char → Bool) (l : List Char) (h : okChars l = true) :
    okChars (l.dropWhile p) = true := by
  induction l with
  | nil => rfl
  | cons c cs ih =>
    rw [List.dropWhile_cons]
    by_cases hp : p c = true
    · simp only [hp, if_pos]
      exact ih (okChars_tail h)
    · simp only [Bool.eq_false_iff.mpr hp, Bool.false_eq_true, if_false]
      exact h

theorem noDouble_dropWhile (p : Char → Bool) (l : List Char) (h : noDouble l = true) :
    noDouble (l.dropWhile p) = true := by
  induction l with
  | nil => rfl
  | cons c cs ih =>
    rw [List.dropWhile_cons]
    by_cases hp : p c = true
    · simp only [hp, if_pos]
      exact ih (noDouble_tail h)
    · simp only [Bool.eq_false_iff.mpr hp, Bool.false_eq_true, if_false]
      exact h

theorem head_dropWhile_hyphen (l : List Char) {c : Char} {t : List Char}
    (h : l.dropWhile (fun x => x == '-') = c :: t) : (c == '-') = false := by
  induction l with
  | nil => simp at h
  | cons a as ih =>
    rw [List.dropWhile_cons] at h
    by_cases ha : (a == '-') = true
    · simp only [ha, if_pos] at h
      exact ih h
    · simp only [Bool.eq_false_iff.mpr ha, Bool.false_eq_true, if_false] at h
      cases h
      exact Bool.eq_false_iff.mpr ha

theorem head_dropTrailingHyphens {l : List Char} {c : Char} {t : List Char}
    (h : dropTrailingHyphens l = c :: t) : ∃ u, l = c :: u := by
  cases l with
  | nil => simp [dropTrailingHyphens] at h
  | cons a as =>
    simp only [dropTrailingHyphens] at h
    rcases hx : dropTrailingHyphens as with _ | ⟨x, xs⟩
    · rw [hx] at h
      by_cases ha : (a == '-') = true
      · simp [ha] at h
      · simp only [Bool.eq_false_iff.mpr ha, Bool.false_eq_true, if_false] at h
        cases h
        exact ⟨as, rfl⟩
    · rw [hx] at h
      cases h
      exact ⟨as, rfl⟩

theorem okChars_dropTrailingHyphens (l : List Char) (h : okChars l = true) :
    okChars (dropTrailingHyphens l) = true := by
  induction l with
  | nil => rfl
  | cons c cs ih =>
    simp only [dropTrailingHyphens]
    rcases hx : dropTrailingHyphens cs with _ | ⟨x, xs⟩
    · by_cases hc : (c == '-') = true
      · simp only [hc, if_pos]
        rfl
      · simp only [Bool.eq_false_iff.mpr hc, Bool.false_eq_true, if_false]
        simp only [okChars, List.all_cons, Bool.and_eq_true] at h ⊢
        exact ⟨h.1, rfl⟩
    · have := ih (okChars_tail h)
      rw [hx] at this
      simp only [okChars, List.all_cons, Bool.and_eq_true] at h this ⊢
      exact ⟨h.1, this⟩

theorem noDouble_dropTrailingHyphens (l : List Char) (h : noDouble l = true) :
    noDouble (dropTrailingHyphens l) = true := by
  induction l with
  | nil => rfl
  | cons c cs ih =>
    simp only [dropTrailingHyphens]
    rcases hx : dropTrailingHyphens cs with _ | ⟨x, xs⟩
    · by_cases hc : (c == '-') = true
      · simp [hc, noDouble]
      · simp [Bool.eq_false_iff.mpr hc, noDouble]
    · have ht := ih (noDouble_tail h)
      rw [hx] at ht
      obtain ⟨u, hu⟩ := head_dropTrailingHyphens hx
      subst hu
      simp only [noDouble, Bool.and_eq_true] at h ⊢
      exact ⟨h.1, ht⟩

theorem noTrailHyphen_dropTrailingHyphens (l : List Char) :
    noTrailHyphen (dropTrailingHyphens l) = true := by
  induction l with
  | nil => rfl
  | cons c cs ih =>
    simp only [dropTrailingHyphens]
    rcases hx : dropTrailingHyphens cs with _ | ⟨x, xs⟩
    · by_cases hc : (c == '-') = true
      · simp [hc, noTrailHyphen]
      · simp [Bool.eq_false_iff.mpr hc, noTrailHyphen]
    · rw [hx] at ih
      cases xs with
      | nil => simpa [noTrailHyphen] using ih
      | cons y ys => simpa [noTrailHyphen] using ih

/-- A word over the slug alphabet with no adjacent hyphens and no trailing
hyphen is accepted by the residual-language recognizer `slugRest`. -/
theorem slugRest_of_invariants (l : List Char) (hok : okChars l = true)
    (hnd : noDouble l = true) (hnt : noTrailHyphen l = true) : slugRest l = true := by
  induction l with
  | nil => rfl
  | cons c cs ih =>
    have hcs : okChars cs = true := okChars_tail hok
    have hoc : isSlugTokenChar c = true := by
      simp only [okChars, List.all_cons, Bool.and_eq_true] at hok
      exact hok.1
    by_cases hc : isAlnumLower c = true
    · simp only [slugRest, hc, if_pos]
      cases cs with
      | nil => rfl
      | cons d ds =>
        exact ih hcs (noDouble_tail hnd) (by simpa [noTrailHyphen] using hnt)
    · have hch : (c == '-') = true := by
        simp only [isSlugTokenChar, Bool.or_eq_true] at hoc
        rcases hoc with h1 | h2
        · exact absurd h1 hc
        · exact h2
      simp only [slugRest, Bool.eq_false_iff.mpr hc, Bool.false_eq_true, if_false, hch,
        Bool.true_and]
      cases cs with
      | nil =>
        exfalso
        simp only [noTrailHyphen, hch] at hnt
        simp at hnt
      | cons d ds =>
        have hd : (d == '-') = false := by
          simp only [noDouble, Bool.and_eq_true] at hnd
          have := hnd.1
          simp only [hch, Bool.true_and] at this
          simpa using this
        have hda : isAlnumLower d = true := by
          have hdok : isSlugTokenChar d = true := by
            simp only [okChars, List.all_cons, Bool.and_eq_true] at hcs
            exact hcs.1
          simp only [isSlugTokenChar, Bool.or_eq_true] at hdok
          rcases hdok with h1 | h2
          · exact h1
          · rw [h2] at hd
            simp at hd
        have hrest : slugRest (d :: ds) = true :=
          ih hcs (noDouble_tail hnd) (by simpa [noTrailHyphen] using hnt)
        simp only [slugRest, hda, if_pos] at hrest
        simp only [slugCore, hda, Bool.true_and]
        exact hrest

/-- A nonempty word over the slug alphabet with no adjacent hyphens, no
leading hyphen and no trailing hyphen matches `^[a-z0-9]+(-[a-z0-9]+)*$`. -/
theorem slugCore_of_invariants (c : Char) (cs : List Char)
    (hok : okChars (c :: cs) = true) (hnd : noDouble (c :: cs) = true)
    (hhd : (c == '-') = false) (hnt : noTrailHyphen (c :: cs) = true) :
    slugCore (c :: cs) = true := by
  have hoc : isSlugTokenChar c = true := by
    simp only [okChars, List.all_cons, Bool.and_eq_true] at hok
    exact hok.1
  have hc : isAlnumLower c = true := by
    simp only [isSlugTokenChar, Bool.or_eq_true] at hoc
    rcases hoc with h1 | h2
    · exact h1
    · rw [h2] at hhd
      simp at hhd
  simp only [slugCore, hc, Bool.true_and]
  cases cs with
  | nil => rfl
  | cons d ds =>
    exact slugRest_of_invariants (d :: ds) (okChars_tail hok) (noDouble_tail hnd)
      (by simpa [noTrailHyphen] using hnt)

/-- Shape of the normalizer output: empty, or accepted by the slug regex. -/
theorem normalizeSlug_shape (s : List Char) :
    normalizeSlug s = [] ∨ slugCore (normalizeSlug s) = true := by
  set m := collapseNonAlnum (s.map jsToLower) with hm
  have hok : okChars m = true := okChars_collapse _
  have hnd : noDouble m = true := noDouble_collapse _
  set m1 := m.dropWhile (fun c => c == '-') with hm1
  have hok1 : okChars m1 = true := okChars_dropWhile _ _ hok
  have hnd1 : noDouble m1 = true := noDouble_dropWhile _ _ hnd
  rcases hx : dropTrailingHyphens m1 with _ | ⟨c, cs⟩
  · left
    simpa [normalizeSlug, hm, hm1] using hx
  · right
    have hok2 : okChars (c :: cs) = true := by
      have := okChars_dropTrailingHyphens m1 hok1
      rwa [hx] at this
    have hnd2 : noDouble (c :: cs) = true := by
      have := noDouble_dropTrailingHyphens m1 hnd1
      rwa [hx] at this
    have hnt2 : noTrailHyphen (c :: cs) = true := by
      have := noTrailHyphen_dropTrailingHyphens m1
      rwa [hx] at this
    have hhd : (c == '-') = false := by
      obtain ⟨u, hu⟩ := head_dropTrailingHyphens hx
      exact head_dropWhile_hyphen m (by rw [← hm1, hu])
    have : slugCore (c :: cs) = true := slugCore_of_invariants c cs hok2 hnd2 hhd hnt2
    have hns : normalizeSlug s = c :: cs := by
      simp only [normalizeSlug, ← hm, ← hm1]
      exact hx
    rw [hns]
    exact this

/-! Identity of the pipeline on already-normalized words. -/

theorem okChars_of_slugRest (l : List Char) :
    (slugCore l = true → okChars l = true) ∧ (slugRest l = true → okChars l = true) := by
  induction l with
  | nil =>
    refine ⟨?_, ?_⟩
    · intro h
      simp [slugCore] at h
    · intro _
      rfl
  | cons c cs ih =>
    constructor
    · intro h
      simp only [slugCore, Bool.and_eq_true] at h
      simp only [okChars, List.all_cons, Bool.and_eq_true]
      exact ⟨by simp [isSlugTokenChar, h.1], ih.2 h.2⟩
    · intro h
      by_cases hc : isAlnumLower c = true
      · simp only [slugRest, hc, if_pos] at h
        simp only [okChars, List.all_cons, Bool.and_eq_true]
        exact ⟨by simp [isSlugTokenChar, hc], ih.2 h⟩
      · simp only [slugRest, Bool.eq_false_iff.mpr hc, Bool.false_eq_true, if_false,
          Bool.and_eq_true] at h
        simp only [okChars, List.all_cons, Bool.and_eq_true]
        exact ⟨by simp [isSlugTokenChar, h.1], ih.1 h.2⟩

theorem jsToLower_fixed {c : Char} (h : isSlugTokenChar c = true) : jsToLower c = c := by
  simp only [isSlugTokenChar, isAlnumLower, Bool.or_eq_true, Bool.and_eq_true,
    decide_eq_true_eq] at h
  have : ¬(65 ≤ c.toNat ∧ c.toNat ≤ 90) := by
    rcases h with (⟨h1, h2⟩ | ⟨h1, h2⟩) | h3
    · omega
    · omega
    · have : c = '-' := by simpa using h3
      subst this
      decide
  simp only [jsToLower]
  rw [if_neg]
  simpa using this

theorem map_jsToLower_fixed (l : List Char) (h : okChars l = true) :
    l.map jsToLower = l := by
  induction l with
  | nil => rfl
  | cons c cs ih =>
    simp only [okChars, List.all_cons, Bool.and_eq_true] at h
    simp only [List.map_cons, jsToLower_fixed h.1, ih h.2]

theorem collapse_fixed (l : List Char) :
    (slugCore l = true → collapseNonAlnum l = l) ∧
    (slugRest l = true → collapseNonAlnum l = l) := by
  induction l with
  | nil =>
    refine ⟨?_, ?_⟩
    · intro h
      simp [slugCore] at h
    · intro _
      rfl
  | cons c cs ih =>
    constructor
    · intro h
      simp only [slugCore, Bool.and_eq_true] at h
      cases cs with
      | nil => simp [collapseNonAlnum, h.1]
      | cons d ds =>
        simp only [collapseNonAlnum, h.1, if_pos, List.cons.injEq, true_and]
        exact ih.2 h.2
    · intro h
      by_cases hc : isAlnumLower c = true
      · simp only [slugRest, hc, if_pos] at h
        cases cs with
        | nil => simp [collapseNonAlnum, hc]
        | cons d ds =>
          simp only [collapseNonAlnum, hc, if_pos, List.cons.injEq, true_and]
          exact ih.2 h
      · simp only [slugRest, Bool.eq_false_iff.mpr hc, Bool.false_eq_true, if_false,
          Bool.and_eq_true] at h
        obtain ⟨hch, hcore⟩ := h
        have hceq : c = '-' := by simpa using hch
        subst hceq
        cases cs with
        | nil => simp [slugCore] at hcore
        | cons d ds =>
          have hd : isAlnumLower d = true := by
            simp only [slugCore, Bool.and_eq_true] at hcore
            exact hcore.1
          have hna : isAlnumLower '-' = false := by decide
          simp only [collapseNonAlnum, hna, Bool.false_eq_true, if_false, hd, if_pos,
            List.cons.injEq, true_and]
          exact ih.1 hcore

theorem dropWhile_hyphen_fixed (c : Char) (cs : List Char) (h : (c == '-') = false) :
    (c :: cs).dropWhile (fun x => x == '-') = c :: cs := by
  rw [List.dropWhile_cons]
  simp [h]

theorem slugRest_noTrailHyphen (l : List Char) :
    (slugCore l = true → noTrailHyphen l = true) ∧
    (slugRest l = true → noTrailHyphen l = true) := by
  induction l with
  | nil =>
    refine ⟨?_, ?_⟩
    · intro h
      simp [slugCore] at h
    · intro _
      rfl
  | cons c cs ih =>
    constructor
    · intro h
      simp only [slugCore, Bool.and_eq_true] at h
      cases cs with
      | nil =>
        simp only [noTrailHyphen, isAlnumLower_ne_hyphen h.1]
        rfl
      | cons d ds =>
        simp only [noTrailHyphen]
        exact ih.2 h.2
    · intro h
      by_cases hc : isAlnumLower c = true
      · simp only [slugRest, hc, if_pos] at h
        cases cs with
        | nil =>
          simp only [noTrailHyphen, isAlnumLower_ne_hyphen hc]
          rfl
        | cons d ds =>
          simp only [noTrailHyphen]
          exact ih.2 h
      · simp only [slugRest, Bool.eq_false_iff.mpr hc, Bool.false_eq_true, if_false,
          Bool.and_eq_true] at h
        cases cs with
        | nil => simp [slugCore] at h
        | cons d ds =>
          simp only [noTrailHyphen]
          exact ih.1 h.2

theorem dropTrailingHyphens_fixed (l : List Char) (h : noTrailHyphen l = true) :
    dropTrailingHyphens l = l := by
  induction l with
  | nil => rfl
  | cons c cs ih =>
    cases cs with
    | nil =>
      simp only [noTrailHyphen] at h
      simp only [dropTrailingHyphens]
      rw [if_neg]
      simp only [Bool.not_eq_true'] at h
      simp [h]
    | cons d ds =>
      have hrec : dropTrailingHyphens (d :: ds) = d :: ds := by
        exact ih (by simpa [noTrailHyphen] using h)
      have hstep : dropTrailingHyphens (c :: d :: ds) =
          match dropTrailingHyphens (d :: ds) with
          | [] => if c == '-' then [] else [c]
          | t => c :: t := rfl
      rw [hstep, hrec]

/-- `normalizeSlug` is the identity on words accepted by the slug regex. -/
theorem normalizeSlug_fixed (l : List Char) (h : slugCore l = true) :
    normalizeSlug l = l := by
  have hok : okChars l = true := (okChars_of_slugRest l).1 h
  have h1 : l.map jsToLower = l := map_jsToLower_fixed l hok
  have h2 : collapseNonAlnum l = l := (collapse_fixed l).1 h
  cases l with
  | nil => cases h
  | cons c cs =>
    have hc : isAlnumLower c = true := by
      simp only [slugCore, Bool.and_eq_true] at h
      exact h.1
    have h3 : (c :: cs).dropWhile (fun x => x == '-') = c :: cs :=
      dropWhile_hyphen_fixed c cs (isAlnumLower_ne_hyphen hc)
    have h4 : dropTrailingHyphens (c :: cs) = c :: cs :=
      dropTrailingHyphens_fixed _ ((slugRest_noTrailHyphen (c :: cs)).1 h)
    simp only [normalizeSlug, h1, h2, h3, h4]

/-- C8: for every input string, the slug normalization (lowercase, each
maximal run of characters outside `[a-z0-9]` replaced by a single hyphen,
leading and trailing hyphens stripped) produces an output that matches
`^[a-z0-9]+(-[a-z0-9]+)*$` (recognized by `slugCore`) or is empty, and the
normalization is idempotent. -/
theorem claim8_normalize_shape_and_idempotent (s : List Char) :
    (normalizeSlug s = [] ∨ slugCore (normalizeSlug s) = true) ∧
    normalizeSlug (normalizeSlug s) = normalizeSlug s := by
  refine ⟨normalizeSlug_shape s, ?_⟩
  rcases normalizeSlug_shape s with h | h
  · rw [h]
    rfl
  · exact normalizeSlug_fixed _ h

/-! ## Data model

Document shapes as used by the controllers (the Mongoose model files for
Product, Category and Color are not part of the sources; the fields below are
the ones the controllers read and write, per spec section 3). -/

/-- A size entry `{size, quantity}` of a variant. -/
structure SizeEntry where
  size : String
  quantity : Int
deriving DecidableEq, Repr

/-- A stored variant image `{url, public_id, alt, isPrimary}`. -/
structure ImageRecord where
  url : String
  public_id : String
  alt : String
  isPrimary : Bool
deriving DecidableEq, Repr

/-- A product variant as stored (ids rendered as strings). -/
structure VariantDoc where
  _id : String
  color : Option String
  price : Option ℚ
  sizes : List SizeEntry
  images : List ImageRecord
deriving DecidableEq, Repr

/-- A product document (fields used by the controllers). -/
structure ProductDoc where
  _id : String
  name : String
  slug : String
  category : String
  brand : String
  base_price : ℚ
  description : Option String
  variants : List VariantDoc
  isActive : Bool
  isFeatured : Bool
  isSoldOut : Bool
  isVisible : Bool
  tags : List String
  collections : List String
  discount : ℚ
deriving DecidableEq, Repr

/-- A Category or Color document restricted to the fields the mutation paths
touch: its id and its denormalized `productCount`. -/
structure CounterDoc where
  _id : String
  productCount : Int
deriving DecidableEq, Repr

/-- A Brand document (brand.js has no productCount field; only existence is
checked by the product controllers). -/
structure BrandDoc where
  _id : String
  name : String
  slug : String
deriving DecidableEq, Repr

/-- The external document store: one list per collection. -/
structure Store where
  products : List ProductDoc
  categories : List CounterDoc
  colors : List CounterDoc
  brands : List BrandDoc
deriving DecidableEq, Repr

/-- `Model.findById` on a counter collection. -/
def findCounter (l : List CounterDoc) (i : String) : Option CounterDoc :=
  l.find? (fun d => d._id == i)

/-- `Model.findByIdAndUpdate(i, { $inc: { productCount: d } })`: bump the
matching document's counter (ids are unique in a collection). -/
def incCounter (l : List CounterDoc) (i : String) (d : Int) : List CounterDoc :=
  l.map (fun doc => if doc._id == i then { doc with productCount := doc.productCount + d } else doc)

/-- `Model.updateMany({ _id: { $in: ids } }, { $inc: { productCount: d } })`:
bump every document whose id is in `ids`, once per document. -/
def incCounters (l : List CounterDoc) (ids : List String) (d : Int) : List CounterDoc :=
  l.map (fun doc =>
    if ids.contains doc._id then { doc with productCount := doc.productCount + d } else doc)

/-- `find?` by id commutes with mapping an id-preserving function. -/
theorem find?_map_id_preserving (f : CounterDoc → CounterDoc)
    (hf : ∀ doc, (f doc)._id = doc._id) (l : List CounterDoc) (j : String) :
    (l.map f).find? (fun d => d._id == j) = (l.find? (fun d => d._id == j)).map f := by
  induction l with
  | nil => rfl
  | cons doc rest ih =>
    rw [List.map_cons]
    by_cases h : (doc._id == j) = true
    · rw [@List.find?_cons_of_pos _ (fun d => d._id == j) (f doc) (rest.map f)
        (by show ((f doc)._id == j) = true; rw [hf doc]; exact h)]
      rw [@List.find?_cons_of_pos _ (fun d => d._id == j) doc rest h]
      rfl
    · rw [@List.find?_cons_of_neg _ (fun d => d._id == j) (f doc) (rest.map f)
        (by show ¬((f doc)._id == j) = true; rw [hf doc]; exact h)]
      rw [@List.find?_cons_of_neg _ (fun d => d._id == j) doc rest h]
      exact ih

theorem incCounter_id_preserving (i : String) (d : Int) (doc : CounterDoc) :
    ((fun doc => if doc._id == i then
        { doc with productCount := doc.productCount + d } else doc) doc)._id = doc._id := by
  dsimp only
  split
  · rfl
  · rfl

theorem incCounters_id_preserving (ids : List String) (d : Int) (doc : CounterDoc) :
    ((fun doc => if ids.contains doc._id then
        { doc with productCount := doc.productCount + d } else doc) doc)._id = doc._id := by
  dsimp only
  split
  · rfl
  · rfl

theorem findCounter_incCounter_self (l : List CounterDoc) (i : String) (d : Int) :
    findCounter (incCounter l i d) i =
      (findCounter l i).map (fun doc => { doc with productCount := doc.productCount + d }) := by
  unfold findCounter incCounter
  rw [find?_map_id_preserving _ (incCounter_id_preserving i d) l i]
  rcases hf : l.find? (fun d => d._id == i) with _ | a
  · rw [hf]
    rfl
  · have ha : (a._id == i) = true := @List.find?_some _ (fun d => d._id == i) a l hf
    rw [hf]
    simp only [Option.map_some']
    rw [if_pos ha]

theorem findCounter_incCounter_ne (l : List CounterDoc) (i j : String) (d : Int)
    (h : (j == i) = false) :
    findCounter (incCounter l i d) j = findCounter l j := by
  unfold findCounter incCounter
  rw [find?_map_id_preserving _ (incCounter_id_preserving i d) l j]
  rcases hf : l.find? (fun d => d._id == j) with _ | a
  · rw [hf]
    rfl
  · have ha : (a._id == j) = true := @List.find?_some _ (fun d => d._id == j) a l hf
    have haj : a._id = j := by simpa using ha
    have hne : (a._id == i) = false := by rw [haj]; exact h
    have hni : ¬((a._id == i) = true) := by simp [hne]
    rw [hf]
    simp only [Option.map_some']
    rw [if_neg hni]

theorem findCounter_incCounters_mem (l : List CounterDoc) (ids : List String) (d : Int)
    (j : String) (hj : ids.contains j = true) :
    findCounter (incCounters l ids d) j =
      (findCounter l j).map (fun doc => { doc with productCount := doc.productCount + d }) := by
  unfold findCounter incCounters
  rw [find?_map_id_preserving _ (incCounters_id_preserving ids d) l j]
  rcases hf : l.find? (fun d => d._id == j) with _ | a
  · rw [hf]
    rfl
  · have ha : (a._id == j) = true := @List.find?_some _ (fun d => d._id == j) a l hf
    have haj : a._id = j := by simpa using ha
    have hm : ids.contains a._id = true := by rw [haj]; exact hj
    rw [hf]
    simp only [Option.map_some']
    rw [if_pos hm]

theorem findCounter_incCounters_not_mem (l : List CounterDoc) (ids : List String) (d : Int)
    (j : String) (hj : ids.contains j = false) :
    findCounter (incCounters l ids d) j = findCounter l j := by
  unfold findCounter incCounters
  rw [find?_map_id_preserving _ (incCounters_id_preserving ids d) l j]
  rcases hf : l.find? (fun d => d._id == j) with _ | a
  · rw [hf]
    rfl
  · have ha : (a._id == j) = true := @List.find?_some _ (fun d => d._id == j) a l hf
    have haj : a._id = j := by simpa using ha
    have hm : ids.contains a._id = false := by rw [haj]; exact hj
    have hni : ¬(ids.contains a._id = true) := by rw [hm]; simp
    rw [hf]
    simp only [Option.map_some']
    rw [if_neg hni]

/-! ## Availability filter (`filterCustomerProducts`, customerproduct.js:531-536)

The handler sets
`query['variants.sizes.quantity'] = isAvailable ? { $gt: 0 } : { $lte: 0 }`
with `isAvailable = available === 'true' || available === true`.
Mongo's dotted-path semantics over the nested arrays: a product document
matches when SOME variant has SOME size entry whose quantity satisfies the
comparison. -/

/-- The quantity comparison the handler installs for a given `available`
query-parameter value (query parameters are strings). -/
def availabilityQuantityCond (available : String) : Int → Bool :=
  if available == "true" then (fun q => 0 < q) else (fun q => q ≤ 0)

/-- Whether a product document matches the installed availability filter
(Mongo array-element semantics for the dotted path
`variants.sizes.quantity`). -/
def matchesAvailabilityFilter (available : String) (p : ProductDoc) : Bool :=
  p.variants.any (fun v => v.sizes.any (fun sz => availabilityQuantityCond available sz.quantity))

/-- The spec's reading of the availability filter ("at least one variant size
has positive quantity" vs "no size has positive quantity"), stated for
comparison with the code's predicate. -/
def specAvailabilitySelects (flag : Bool) (p : ProductDoc) : Bool :=
  if flag then p.variants.any (fun v => v.sizes.any (fun sz => 0 < sz.quantity))
  else !(p.variants.any (fun v => v.sizes.any (fun sz => 0 < sz.quantity)))

/-- A variant with sizes of quantity 5 and 0. -/
def availCounterVariant : VariantDoc :=
  { _id := "v1", color := some "col1", price := some 10,
    sizes := [{ size := "M", quantity := 5 }, { size := "L", quantity := 0 }],
    images := [] }

/-- A product with one variant carrying sizes of quantity 5 and 0: it has a
positive-quantity size, yet the code's `available=false` filter selects it. -/
def availCounterProduct : ProductDoc :=
  { _id := "p1", name := "Tee", slug := "tee", category := "cat1", brand := "br1",
    base_price := 10, description := none,
    variants := [availCounterVariant],
    isActive := true, isFeatured := false, isSoldOut := false, isVisible := true,
    tags := [], collections := [], discount := 0 }

/-- C3 counterexample: for `available=false` the code's predicate (`$lte: 0`
on `variants.sizes.quantity`) selects a product that does have a
positive-quantity size, while the claim says such a product is excluded
("exactly the products in which no size of any variant has positive
quantity"). -/
theorem claim3_counterexample :
    matchesAvailabilityFilter "false" availCounterProduct = true ∧
    specAvailabilitySelects false availCounterProduct = false := by
  constructor
  · decide
  · decide

/-- C3 amended: the filter with flag `true` selects exactly the products in
which at least one variant size has positive quantity; with any other flag
value it selects exactly the products in which at least one variant size has
non-positive quantity (not: no size positive). -/
theorem claim3_amended_availability (available : String) (p : ProductDoc) :
    (matchesAvailabilityFilter available p = true ↔
      (if available == "true"
        then ∃ v ∈ p.variants, ∃ sz ∈ v.sizes, 0 < sz.quantity
        else ∃ v ∈ p.variants, ∃ sz ∈ v.sizes, sz.quantity ≤ 0)) := by
  by_cases h : (available == "true") = true
  · simp only [matchesAvailabilityFilter, availabilityQuantityCond, h, if_pos, if_true,
      List.any_eq_true, decide_eq_true_eq]
  · simp only [matchesAvailabilityFilter, availabilityQuantityCond, h, if_neg, if_false,
      Bool.false_eq_true, List.any_eq_true, decide_eq_true_eq]

/-! ## Price filters

`filterCustomerProducts` (customerproduct.js:495-529) validates the bounds
and applies them to `variants.price`; `getCustomerProducts`
(customerproduct.js:110-121) applies each parsable bound to `base_price`
with no validation at all.

A price query parameter is either absent (or the empty string, falsy in JS),
a string parsing to a number, or a non-numeric string
(`parseFloat` is `NaN`). -/

inductive PriceParam where
  | absent
  | num (q : ℚ)
  | nonNum
deriving DecidableEq, Repr

/-- JS truthiness of the raw parameter (`minPrice || maxPrice`). -/
def PriceParam.truthy : PriceParam → Bool
  | .absent => false
  | _ => true

/-- `p && !isNaN(parseFloat(p)) ? parseFloat(p) : null`. -/
def PriceParam.parsed : PriceParam → Option ℚ
  | .num q => some q
  | _ => none

/-- Outcome of the price section of a query builder. -/
inductive PriceBuild where
  | noFilter
  | rejected (msg : String)
  | applied (gte lte : Option ℚ)
deriving DecidableEq, Repr

def isNegOpt : Option ℚ → Bool
  | some m => decide (m < 0)
  | none => false

def minGtMaxOpt : Option ℚ → Option ℚ → Bool
  | some m, some mx => decide (mx < m)
  | _, _ => false

/-- Price section of `filterCustomerProducts` (customerproduct.js:495-529):
reject a negative minimum, then a negative maximum, then `min > max`;
otherwise install the parsed bounds on `variants.price` (together with the
constant `$exists/$ne null` guards). -/
def buildPriceFilterFCP (minP maxP : PriceParam) : PriceBuild :=
  if minP.truthy || maxP.truthy then
    if isNegOpt minP.parsed then .rejected "Minimum price cannot be negative"
    else if isNegOpt maxP.parsed then .rejected "Maximum price cannot be negative"
    else if minGtMaxOpt minP.parsed maxP.parsed then
      .rejected "Minimum price cannot be greater than maximum price"
    else .applied minP.parsed maxP.parsed
  else .noFilter

/-- Price section of `getCustomerProducts` (customerproduct.js:110-121): each
bound that parses is installed on `base_price`; nothing is validated. -/
def buildPriceFilterGCP (minP maxP : PriceParam) : PriceBuild :=
  if minP.truthy || maxP.truthy then .applied minP.parsed maxP.parsed
  else .noFilter

def PriceBuild.isRejected : PriceBuild → Bool
  | .rejected _ => true
  | _ => false

/-- C3-adjacent sanity examples for the price builders. -/
example : buildPriceFilterFCP (.num 1) (.num 2) = .applied (some 1) (some 2) := by decide

/-- C4 counterexample: the claim quantifies over every filter request of the
cited code, which includes `getCustomerProducts`; there, `minPrice=50,
maxPrice=10` is not rejected — the handler silently runs the query with
`base_price >= 50` and `base_price <= 10`. (`filterCustomerProducts` does
reject the same input.) -/
theorem claim4_counterexample :
    buildPriceFilterGCP (PriceParam.num 50) (PriceParam.num 10)
      = PriceBuild.applied (some 50) (some 10) ∧
    (buildPriceFilterGCP (PriceParam.num 50) (PriceParam.num 10)).isRejected = false ∧
    buildPriceFilterFCP (PriceParam.num 50) (PriceParam.num 10)
      = PriceBuild.rejected "Minimum price cannot be greater than maximum price" := by
  refine ⟨rfl, rfl, ?_⟩
  decide

/-- C4 amended: in `filterCustomerProducts` the price section rejects a
supplied negative minimum, a supplied negative maximum, and supplied bounds
with `min > max`, each with a client error; and whenever it does install a
filter it installs exactly the parsed bounds — it never swaps or drops them.
(`getCustomerProducts` performs none of this validation.) -/
theorem claim4_amended_price_validation (m mx : ℚ) (minP maxP : PriceParam) :
    (0 ≤ m → 0 ≤ mx → mx < m →
      buildPriceFilterFCP (.num m) (.num mx)
        = .rejected "Minimum price cannot be greater than maximum price") ∧
    (m < 0 →
      buildPriceFilterFCP (.num m) maxP = .rejected "Minimum price cannot be negative") ∧
    (mx < 0 → isNegOpt minP.parsed = false →
      buildPriceFilterFCP minP (.num mx) = .rejected "Maximum price cannot be negative") ∧
    (∀ g l, buildPriceFilterFCP minP maxP = .applied g l →
      g = minP.parsed ∧ l = maxP.parsed) := by
  refine ⟨?_, ?_, ?_, ?_⟩
  · intro h1 h2 h3
    unfold buildPriceFilterFCP
    rw [if_pos (by rfl : ((PriceParam.num m).truthy || (PriceParam.num mx).truthy) = true)]
    rw [if_neg (by simp [PriceParam.parsed, isNegOpt]; linarith :
      ¬(isNegOpt (PriceParam.num m).parsed = true))]
    rw [if_neg (by simp [PriceParam.parsed, isNegOpt]; linarith :
      ¬(isNegOpt (PriceParam.num mx).parsed = true))]
    rw [if_pos (by simp [PriceParam.parsed, minGtMaxOpt]; exact h3 :
      minGtMaxOpt (PriceParam.num m).parsed (PriceParam.num mx).parsed = true)]
  · intro h1
    unfold buildPriceFilterFCP
    rw [if_pos (by simp [PriceParam.truthy] : ((PriceParam.num m).truthy || maxP.truthy) = true)]
    rw [if_pos (by simp [PriceParam.parsed, isNegOpt]; exact h1 :
      isNegOpt (PriceParam.num m).parsed = true)]
  · intro h1 h2
    unfold buildPriceFilterFCP
    rw [if_pos (by simp [PriceParam.truthy] : (minP.truthy || (PriceParam.num mx).truthy) = true)]
    rw [if_neg (by rw [h2]; simp : ¬(isNegOpt minP.parsed = true))]
    rw [if_pos (by simp [PriceParam.parsed, isNegOpt]; exact h1 :
      isNegOpt (PriceParam.num mx).parsed = true)]
  · intro g l h
    unfold buildPriceFilterFCP at h
    by_cases ht : (minP.truthy || maxP.truthy) = true
    · rw [if_pos ht] at h
      by_cases hn1 : isNegOpt minP.parsed = true
      · rw [if_pos hn1] at h
        cases h
      · rw [if_neg hn1] at h
        by_cases hn2 : isNegOpt maxP.parsed = true
        · rw [if_pos hn2] at h
          cases h
        · rw [if_neg hn2] at h
          by_cases hgt : minGtMaxOpt minP.parsed maxP.parsed = true
          · rw [if_pos hgt] at h
            cases h
          · rw [if_neg hgt] at h
            cases h
            exact ⟨rfl, rfl⟩
    · rw [if_neg ht] at h
      cases h

/-- C4 amended-claim witness at the spec's example input `minPrice=50,
maxPrice=10`. -/
theorem claim4_amended_price_validation_witness :
    buildPriceFilterFCP (.num 50) (.num 10)
      = .rejected "Minimum price cannot be greater than maximum price" :=
  (claim4_amended_price_validation 50 10 (.num 50) (.num 10)).1
    (by norm_num) (by norm_num) (by norm_num)

/-! ## Boolean flag updates in `updateProduct` (product.js:691-696)

The handler builds
`isActive: isActive === 'true' || isActive === true ? true : product.isActive`
(and the same for `isFeatured`, `isVisible`), and
`isSoldOut: isSoldOut === 'false' || isSoldOut === false ? false : product.isSoldOut`.
A request-body flag can be the strings `'true'`/`'false'`, the booleans, be
absent, or be any other value. -/

inductive JsBoolParam where
  | strTrue
  | strFalse
  | boolTrue
  | boolFalse
  | absent
  | other (s : String)
deriving DecidableEq, Repr

/-- `v === 'true' || v === true`. -/
def JsBoolParam.isTrueLiteral : JsBoolParam → Bool
  | .strTrue => true
  | .boolTrue => true
  | _ => false

/-- `v === 'false' || v === false`. -/
def JsBoolParam.isFalseLiteral : JsBoolParam → Bool
  | .strFalse => true
  | .boolFalse => true
  | _ => false

/-- The stored `isActive` after `updateProduct` (product.js:691). -/
def nextIsActive (v : JsBoolParam) (stored : Bool) : Bool :=
  if v.isTrueLiteral then true else stored

/-- The stored `isFeatured` after `updateProduct` (product.js:694). -/
def nextIsFeatured (v : JsBoolParam) (stored : Bool) : Bool :=
  if v.isTrueLiteral then true else stored

/-- The stored `isVisible` after `updateProduct` (product.js:696). -/
def nextIsVisible (v : JsBoolParam) (stored : Bool) : Bool :=
  if v.isTrueLiteral then true else stored

/-- The stored `isSoldOut` after `updateProduct` (product.js:695). -/
def nextIsSoldOut (v : JsBoolParam) (stored : Bool) : Bool :=
  if v.isFalseLiteral then false else stored

/-- C9: the update of the boolean flags is one-directional. Any request value
other than the literals `'true'`/`true` leaves `isActive`, `isFeatured` and
`isVisible` unchanged, and those flags never go from `true` to `false`;
any request value other than `'false'`/`false` leaves `isSoldOut` unchanged,
and `isSoldOut` never goes from `false` to `true` — in particular a request
value of `true` leaves a stored `isSoldOut` unchanged. -/
theorem claim9_flag_updates_one_directional (v : JsBoolParam) (stored : Bool) :
    (v.isTrueLiteral = false → nextIsActive v stored = stored) ∧
    (v.isTrueLiteral = false → nextIsFeatured v stored = stored) ∧
    (v.isTrueLiteral = false → nextIsVisible v stored = stored) ∧
    (stored = true → nextIsActive v stored = true) ∧
    (stored = true → nextIsFeatured v stored = true) ∧
    (stored = true → nextIsVisible v stored = true) ∧
    (v.isFalseLiteral = false → nextIsSoldOut v stored = stored) ∧
    (stored = false → nextIsSoldOut v stored = false) := by
  cases v <;> cases stored <;> exact ⟨fun h => by simp_all [nextIsActive, JsBoolParam.isTrueLiteral],
    fun h => by simp_all [nextIsFeatured, JsBoolParam.isTrueLiteral],
    fun h => by simp_all [nextIsVisible, JsBoolParam.isTrueLiteral],
    fun h => by simp_all [nextIsActive, JsBoolParam.isTrueLiteral],
    fun h => by simp_all [nextIsFeatured, JsBoolParam.isTrueLiteral],
    fun h => by simp_all [nextIsVisible, JsBoolParam.isTrueLiteral],
    fun h => by simp_all [nextIsSoldOut, JsBoolParam.isFalseLiteral],
    fun h => by simp_all [nextIsSoldOut, JsBoolParam.isFalseLiteral]⟩

/-- C9 witness: a request value of `false` cannot turn `isActive` off, and a
request value of `true` cannot turn `isSoldOut` on. -/
theorem claim9_flag_updates_one_directional_witness :
    nextIsActive JsBoolParam.boolFalse true = true ∧
    nextIsSoldOut JsBoolParam.boolTrue false = false := by
  have h := claim9_flag_updates_one_directional JsBoolParam.boolFalse true
  have h2 := claim9_flag_updates_one_directional JsBoolParam.boolTrue false
  exact ⟨h.2.2.2.1 rfl, h2.2.2.2.2.2.2.2 rfl⟩

/-! ## Variant merge in `updateProduct` (product.js:576-608)

The handler clones the stored variants, then walks the incoming payload:
an entry with a truthy, syntactically valid `_id` patches the matching stored
variant in place (`findIndex` by id; images preserved) and is dropped when no
stored variant matches; otherwise an entry with a truthy `color` is collected
as a new variant with a freshly generated id; the news are appended at the
end. -/

/-- An incoming variant payload after JSON parsing (absent fields are
`none`). -/
structure IncomingVariant where
  _id : Option String
  color : Option String
  price : Option ℚ
  sizes : Option (List SizeEntry)
  images : Option (List ImageRecord)
deriving DecidableEq, Repr

/-- JS truthiness of a string: only the empty string is falsy. -/
def jsTruthyStr (s : String) : Bool :=
  !s.isEmpty

/-- Model of `mongoose.isValidObjectId` on strings: a 24-character hex string
(or any 12-character string, which the driver casts byte-wise). -/
def isValidObjectId (s : String) : Bool :=
  (s.length == 24 &&
    s.data.all (fun c => c.isDigit || (97 ≤ c.toNat && c.toNat ≤ 102)
      || (65 ≤ c.toNat && c.toNat ≤ 70)))
  || s.length == 12

/-- The in-place patch of a matched stored variant: `color`/`price`/`sizes`
overwritten when supplied (`??` fallback), images preserved. -/
def patchVariant (old : VariantDoc) (iv : IncomingVariant) : VariantDoc :=
  { old with
    color := match iv.color with | some c => some c | none => old.color,
    price := match iv.price with | some p => some p | none => old.price,
    sizes := match iv.sizes with | some s => s | none => old.sizes }

/-- `findIndex` by `_id` followed by in-place replacement: patch the first
stored variant whose id matches, leave the list unchanged when none does. -/
def patchById (l : List VariantDoc) (i : String) (iv : IncomingVariant) : List VariantDoc :=
  match l with
  | [] => []
  | v :: vs => if v._id == i then patchVariant v iv :: vs else v :: patchById vs i iv

/-- `variant._id && mongoose.isValidObjectId(variant._id)`. -/
def ivHasValidId (iv : IncomingVariant) : Bool :=
  match iv._id with
  | some i => jsTruthyStr i && isValidObjectId i
  | none => false

/-- `else if (variant.color)`. -/
def ivWantsNew (iv : IncomingVariant) : Bool :=
  match iv.color with
  | some c => jsTruthyStr c
  | none => false

def patchApply (updated : List VariantDoc) (iv : IncomingVariant) : List VariantDoc :=
  match iv._id with
  | some i => patchById updated i iv
  | none => updated

/-- A new variant pushed for an entry without a usable `_id` but with a
color: fresh id, `sizes`/`images` defaulted to `[]` (`|| []`). -/
def newVariantOf (freshId : String) (iv : IncomingVariant) : VariantDoc :=
  { _id := freshId, color := iv.color, price := iv.price,
    sizes := iv.sizes.getD [], images := iv.images.getD [] }

/-- The `forEach` loop of the merge: `updated` is the cloned stored list,
`news` the accumulated new variants (reversed), `k` counts fresh ids. -/
def mergeVariantsGo (freshIds : Nat → String) (updated news : List VariantDoc) (k : Nat) :
    List IncomingVariant → List VariantDoc
  | [] => updated ++ news.reverse
  | iv :: rest =>
    if ivHasValidId iv then
      mergeVariantsGo freshIds (patchApply updated iv) news k rest
    else if ivWantsNew iv then
      mergeVariantsGo freshIds updated (newVariantOf (freshIds k) iv :: news) (k + 1) rest
    else
      mergeVariantsGo freshIds updated news k rest

/-- The merge of product.js:576-608: patch by id, append the collected new
variants. -/
def mergeVariants (existing : List VariantDoc) (incoming : List IncomingVariant)
    (freshIds : Nat → String) : List VariantDoc :=
  mergeVariantsGo freshIds existing [] 0 incoming

theorem patchById_no_match (l : List VariantDoc) (i : String) (iv : IncomingVariant)
    (h : ∀ v ∈ l, (v._id == i) = false) : patchById l i iv = l := by
  induction l with
  | nil => rfl
  | cons v vs ih =>
    have hv : (v._id == i) = false := h v (List.mem_cons_self v vs)
    simp only [patchById, hv, Bool.false_eq_true, if_false, List.cons.injEq, true_and]
    exact ih (fun w hw => h w (List.mem_cons_of_mem v hw))

/-- C10: an incoming variant with a truthy, syntactically valid `_id` that
matches no stored variant of the product is silently discarded by the merge:
it is neither patched in nor appended, and the merge proceeds with the rest
of the payload exactly as if the entry were absent. -/
theorem claim10_orphan_variant_discarded (existing : List VariantDoc)
    (iv : IncomingVariant) (rest : List IncomingVariant) (freshIds : Nat → String)
    (i : String) (hid : iv._id = some i) (htruthy : jsTruthyStr i = true)
    (hvalid : isValidObjectId i = true)
    (hnomatch : ∀ v ∈ existing, (v._id == i) = false) :
    mergeVariants existing (iv :: rest) freshIds = mergeVariants existing rest freshIds := by
  have hvalidId : ivHasValidId iv = true := by
    simp only [ivHasValidId, hid, htruthy, hvalid, Bool.and_self]
  have happly : patchApply existing iv = existing := by
    simp only [patchApply, hid]
    exact patchById_no_match existing i iv hnomatch
  simp only [mergeVariants, mergeVariantsGo, hvalidId, if_pos, if_true, happly]

/-- One stored variant, with a fixed id. -/
def orphanWitnessStored : VariantDoc :=
  { _id := "aaaaaaaaaaaaaaaaaaaaaaaa", color := some "col1", price := some 5,
    sizes := [], images := [] }

/-- An incoming entry with a valid id that matches nothing. -/
def orphanWitnessIncoming : IncomingVariant :=
  { _id := some "0123456789abcdef01234567", color := some "col2", price := some 9,
    sizes := none, images := none }

/-- C10 witness: with one stored variant and an orphan incoming entry, the
merge is the same as with an empty payload (the stored list, unchanged). -/
theorem claim10_orphan_variant_discarded_witness :
    mergeVariants [orphanWitnessStored] [orphanWitnessIncoming] (fun _ => "f1")
      = mergeVariants [orphanWitnessStored] [] (fun _ => "f1") ∧
    mergeVariants [orphanWitnessStored] [] (fun _ => "f1") = [orphanWitnessStored] := by
  constructor
  · exact claim10_orphan_variant_discarded [orphanWitnessStored] orphanWitnessIncoming []
      (fun _ => "f1") "0123456789abcdef01234567" rfl (by decide) (by decide) (by decide)
  · rfl

/-! ## The `updateProduct` atomic unit (product.js:668-790)

Inside the session the handler: (1) if a category was supplied and differs
from the current one, decrements the old category's counter and increments
the new one's; (2) increments the counters of newly referenced colors and
decrements those of no-longer-referenced colors (symmetric difference of the
deduplicated old/new color-id sets); (3) `$set`s the merged product document.
On any error it calls `abortTransaction`, whose contract is that the store
is left exactly as before the unit began. -/

/-- `Product.findByIdAndUpdate(id, { $set: updateData })`: replace the fields
of the matching document (here: the whole modelled document). -/
def setProductById (l : List ProductDoc) (i : String) (p : ProductDoc) : List ProductDoc :=
  l.map (fun q => if q._id == i then p else q)

/-- Everything the update's atomic unit reads: the request's category field,
the loaded product, the merged variant list and the merged `$set` document. -/
structure UpdateTxInput where
  reqCategory : Option String
  product : ProductDoc
  updatedVariants : List VariantDoc
  updateData : ProductDoc
deriving Repr

/-- The committed effect of the update's atomic unit on the store. -/
def updateTxApply (inp : UpdateTxInput) (s : Store) : Store :=
  let oldColorIds := (inp.product.variants.filterMap (fun v => v.color)).dedup
  let newColorIds := (inp.updatedVariants.filterMap (fun v => v.color)).dedup
  let colorsToIncrement := newColorIds.filter (fun i => !(oldColorIds.contains i))
  let colorsToDecrement := oldColorIds.filter (fun i => !(newColorIds.contains i))
  let s1 :=
    match inp.reqCategory with
    | some c =>
      if c ≠ inp.product.category then
        { s with categories := incCounter (incCounter s.categories inp.product.category (-1)) c 1 }
      else s
    | none => s
  let s2 :=
    if colorsToIncrement.isEmpty then s1
    else { s1 with colors := incCounters s1.colors colorsToIncrement 1 }
  let s3 :=
    if colorsToDecrement.isEmpty then s2
    else { s2 with colors := incCounters s2.colors colorsToDecrement (-1) }
  { s3 with products := setProductById s3.products inp.product._id inp.updateData }

/-- The session semantics (start → operations → commit / abort): a failing
unit is aborted and the store is unchanged; a successful unit commits the
whole effect. Returns whether the unit committed. -/
def runUpdateProductTx (inp : UpdateTxInput) (s : Store) (txFails : Bool) : Bool × Store :=
  if txFails then (false, s) else (true, updateTxApply inp s)

/-- C1: when the request supplies a category B different from the loaded
product's category A, the committed unit leaves A's `productCount` decremented
by exactly 1 and B's incremented by exactly 1; and a failing unit is aborted
with the whole store (both counters and the product document) unchanged. -/
theorem claim1_update_category_counters_and_rollback (inp : UpdateTxInput) (s : Store)
    (A B : String) (da db : CounterDoc)
    (hA : inp.product.category = A) (hreq : inp.reqCategory = some B) (hne : B ≠ A)
    (hfA : findCounter s.categories A = some da)
    (hfB : findCounter s.categories B = some db) :
    (findCounter ((runUpdateProductTx inp s false).2).categories A
        = some { da with productCount := da.productCount - 1 } ∧
     findCounter ((runUpdateProductTx inp s false).2).categories B
        = some { db with productCount := db.productCount + 1 }) ∧
    runUpdateProductTx inp s true = (false, s) := by
  constructor
  · have hcats : ((runUpdateProductTx inp s false).2).categories
        = incCounter (incCounter s.categories A (-1)) B 1 := by
      show (updateTxApply inp s).categories = _
      unfold updateTxApply
      simp only [hreq, hA]
      rw [if_pos hne]
      split
      · split
        · rfl
        · rfl
      · split
        · rfl
        · rfl
    have hBA : (B == A) = false := by
      rw [beq_eq_false_iff_ne]
      exact hne
    have hAB : (A == B) = false := by
      rw [beq_eq_false_iff_ne]
      exact fun h => hne h.symm
    constructor
    · rw [hcats, findCounter_incCounter_ne _ _ _ _ hAB, findCounter_incCounter_self, hfA]
      simp only [Option.map_some']
      have : da.productCount + (-1) = da.productCount - 1 := by omega
      rw [this]
    · rw [hcats, findCounter_incCounter_self, findCounter_incCounter_ne _ _ _ _ hBA, hfB]
      simp only [Option.map_some']
  · rfl

/-- A concrete store for the C1 witness: one product in category "A", both
counters present. -/
def c1Product : ProductDoc :=
  { _id := "p1", name := "Tee", slug := "tee", category := "A", brand := "br1",
    base_price := 10, description := none, variants := [availCounterVariant],
    isActive := true, isFeatured := false, isSoldOut := false, isVisible := true,
    tags := [], collections := [], discount := 0 }

def c1Store : Store :=
  { products := [c1Product],
    categories := [{ _id := "A", productCount := 3 }, { _id := "B", productCount := 7 }],
    colors := [{ _id := "col1", productCount := 1 }],
    brands := [{ _id := "br1", name := "Brand", slug := "brand" }] }

def c1Input : UpdateTxInput :=
  { reqCategory := some "B", product := c1Product,
    updatedVariants := [availCounterVariant],
    updateData := { c1Product with category := "B" } }

/-- C1 witness: updating the category from "A" to "B" commits A ↦ 2 and
B ↦ 8; the aborted unit leaves the store untouched. -/
theorem claim1_update_category_counters_and_rollback_witness :
    (findCounter ((runUpdateProductTx c1Input c1Store false).2).categories "A"
        = some { _id := "A", productCount := 2 } ∧
     findCounter ((runUpdateProductTx c1Input c1Store false).2).categories "B"
        = some { _id := "B", productCount := 8 }) ∧
    runUpdateProductTx c1Input c1Store true = (false, c1Store) :=
  claim1_update_category_counters_and_rollback c1Input c1Store "A" "B"
    { _id := "A", productCount := 3 } { _id := "B", productCount := 7 }
    rfl rfl (by decide) (by decide) (by decide)

/-! ## The `deleteProduct` handler (product.js:804-864)

After loading the product and starting the session, the handler first walks
every variant image, unlinking the uploads-directory file named by the
image's url basename when it exists (`fs.existsSync` / `fs.unlinkSync`,
product.js:819-828 — note: inside the `try` block of the transaction and
with no per-file error handling); then, in the session, it decrements the
category counter and decrements each distinct referenced color's counter
with a single `updateMany`. Then comes product.js:848: a bare expression
statement consisting of the identifier `Image`. The file is an ES module
(strict or not is irrelevant: reading an undeclared identifier always
throws), no binding named `Image` exists in the module or among Node's
globals, and automatic semicolon insertion makes it a statement of its own
before `await Product.deleteOne(...)` — so this line throws
`ReferenceError: Image is not defined` on every execution that reaches it.
Any thrown error aborts the transaction, leaving the store unchanged; the
handler can therefore never commit a deletion. -/

/-- `path.basename`: the part of the url after the last slash. -/
def basename (s : String) : String :=
  String.mk (((s.data.reverse).takeWhile (fun c => !(c == '/'))).reverse)

/-- State of a file in the uploads directory: absent, present and deletable,
or present but undeletable (`unlinkSync` throws, e.g. permissions). -/
inductive FileState where
  | absent
  | present
  | presentLocked
deriving DecidableEq, Repr

/-- The image-unlink loop completes without throwing iff no image's file is
present but undeletable (missing files are skipped by `existsSync`). -/
def deleteImagesPass (fsState : String → FileState) (p : ProductDoc) : Bool :=
  p.variants.all (fun v => v.images.all (fun img =>
    match fsState (basename img.url) with
    | FileState.presentLocked => false
    | _ => true))

/-- The effect the session operations before product.js:848 plus the
`deleteOne` would commit (category counter -1, each distinct referenced
color -1 once, record removed) — the handler's intended effect, which the
`ReferenceError` at product.js:848 prevents from ever being committed. -/
def deleteProductApply (p : ProductDoc) (s : Store) : Store :=
  let colorIds := (p.variants.filterMap (fun v => v.color)).dedup
  let s1 := { s with categories := incCounter s.categories p.category (-1) }
  let s2 :=
    if colorIds.isEmpty then s1
    else { s1 with colors := incCounters s1.colors colorIds (-1) }
  { s2 with products := s2.products.filter (fun q => !(q._id == p._id)) }

/-- The whole delete as written: if the unlink loop throws, the transaction
is aborted with the store unchanged; otherwise the session operations run,
but the bare `Image` statement at product.js:848 throws `ReferenceError`
right before `Product.deleteOne`, so the transaction is aborted there too.
Either way the handler returns the store unchanged and never commits. -/
def runDeleteProduct (p : ProductDoc) (fsState : String → FileState) (s : Store) :
    Bool × Store :=
  if deleteImagesPass fsState p then (false, s) else (false, s)

/-- Two variants referencing the same color (and one a second color). -/
def c2VariantA : VariantDoc :=
  { _id := "v1", color := some "colX", price := some 5, sizes := [], images := [] }

def c2VariantB : VariantDoc :=
  { _id := "v2", color := some "colX", price := some 6, sizes := [], images := [] }

def c2VariantC : VariantDoc :=
  { _id := "v3", color := some "colY", price := some 7, sizes := [], images := [] }

/-- A product whose variants reference color "colX" twice and "colY" once. -/
def c2Product : ProductDoc :=
  { _id := "p2", name := "Cap", slug := "cap", category := "catC", brand := "br1",
    base_price := 8, description := none,
    variants := [c2VariantA, c2VariantB, c2VariantC],
    isActive := true, isFeatured := false, isSoldOut := false, isVisible := true,
    tags := [], collections := [], discount := 0 }

def c2Store : Store :=
  { products := [c2Product],
    categories := [{ _id := "catC", productCount := 4 }],
    colors := [{ _id := "colX", productCount := 9 }, { _id := "colY", productCount := 2 }],
    brands := [{ _id := "br1", name := "Brand", slug := "brand" }] }

/-- C2 (code bug): no product deletion can ever succeed — the bare `Image`
identifier at product.js:848 throws `ReferenceError` inside the transaction
before `Product.deleteOne`, so every run of the handler aborts and returns
the store unchanged (first conjunct, for every product, file state and
store). The session operations as written up to that line, together with the
`deleteOne` they precede (`deleteProductApply`), are exactly what the claim
describes: evaluated on a product with two variants on "colX" and one on
"colY", they would take the category 4 ↦ 3 and "colX" 9 ↦ 8 — decremented
once, not once per referencing variant — "colY" 2 ↦ 1, and remove the
record; the stray identifier is all that stands between the code and the
claimed behaviour. -/
theorem claim2_delete_blocked_by_reference_error :
    (∀ (p : ProductDoc) (fsState : String → FileState) (s : Store),
      runDeleteProduct p fsState s = (false, s)) ∧
    findCounter (deleteProductApply c2Product c2Store).categories "catC"
      = some { _id := "catC", productCount := 3 } ∧
    findCounter (deleteProductApply c2Product c2Store).colors "colX"
      = some { _id := "colX", productCount := 8 } ∧
    findCounter (deleteProductApply c2Product c2Store).colors "colY"
      = some { _id := "colY", productCount := 1 } ∧
    (deleteProductApply c2Product c2Store).products = [] := by
  refine ⟨?_, ?_, ?_, ?_, ?_⟩
  · intro p fsState s
    unfold runDeleteProduct
    split
    · rfl
    · rfl
  · decide
  · decide
  · decide
  · decide

/-! C6 concerns the same handler: the spec says the asset removal is outside
the atomic unit, best-effort, and that a failed deletion never prevents the
product record from being deleted. In the code the unlink loop runs inside
the transaction's `try` block with no per-file error handling: `existsSync`
does tolerate missing files, but any other `unlinkSync` failure propagates,
aborts the transaction, and leaves the product undeleted. -/

/-- An image whose uploads file is undeletable. -/
def c6Image : ImageRecord :=
  { url := "https://cdn.example.com/img/locked1.jpg", public_id := "locked1",
    alt := "a", isPrimary := true }

/-- A variant whose single image maps to an undeletable uploads file. -/
def c6Variant : VariantDoc :=
  { _id := "v1", color := some "colX", price := some 5, sizes := [],
    images := [c6Image] }

def c6Product : ProductDoc :=
  { _id := "p6", name := "Hat", slug := "hat", category := "catC", brand := "br1",
    base_price := 8, description := none, variants := [c6Variant],
    isActive := true, isFeatured := false, isSoldOut := false, isVisible := true,
    tags := [], collections := [], discount := 0 }

def c6Store : Store :=
  { products := [c6Product],
    categories := [{ _id := "catC", productCount := 4 }],
    colors := [{ _id := "colX", productCount := 9 }],
    brands := [{ _id := "br1", name := "Brand", slug := "brand" }] }

/-- The uploads file for the product's image exists but cannot be unlinked. -/
def c6FileState (name : String) : FileState :=
  if name == "locked1.jpg" then FileState.presentLocked else FileState.absent

/-- C6 evaluation at the failing input: with one image file present but
undeletable, the delete handler aborts — the store is unchanged, the product
is still there, and neither counter was decremented — contradicting the
claim that a failed asset deletion never prevents product removal. -/
theorem claim6_failed_unlink_blocks_delete :
    runDeleteProduct c6Product c6FileState c6Store = (false, c6Store) ∧
    c6Product ∈ ((runDeleteProduct c6Product c6FileState c6Store).2).products ∧
    findCounter ((runDeleteProduct c6Product c6FileState c6Store).2).categories "catC"
      = some { _id := "catC", productCount := 4 } := by
  refine ⟨?_, ?_, ?_⟩
  · decide
  · decide
  · decide

/-! ## The `createProduct` pipeline (product.js:150-377)

After JSON parsing, the handler checks (in order): required fields present
and at least one variant (422); category exists (400); brand exists (400);
every variant color resolves — `Color.find({_id: {$in: colorIds}})` must
return as many documents as there are color entries (400); the name's slug is
free (409 Conflict); uploaded files attach to variants by index and, when any
file was uploaded, at least one variant must carry images (400). Only then
does the atomic unit run: insert the product, `$inc` the category counter,
`$inc` each distinct referenced color once. Failure inside the unit aborts
it (store unchanged, 500). -/

/-- An uploaded file (multer/cloudinary): `path` is the hosted url,
`filename` the storage reference. -/
structure FileUpload where
  path : String
  filename : String
deriving DecidableEq, Repr

/-- A parsed variant of the create payload. -/
structure CreateVariantReq where
  color : Option String
  price : Option ℚ
  sizes : List SizeEntry
deriving DecidableEq, Repr

/-- The parsed create request. `none` models an absent or JS-falsy field
(for `base_price`, a numeric 0 is falsy in JS and also counts as missing).
`files` models `req.files` keyed by the variant index of the field name
`variants[i][image]`; the empty list models no upload at all. -/
structure CreateReq where
  name : Option String
  category : Option String
  brand : Option String
  base_price : Option ℚ
  description : Option String
  variants : List CreateVariantReq
  isActive : Option Bool
  isFeatured : Option Bool
  isSoldOut : Option Bool
  isVisible : Option Bool
  tags : List String
  collections : List String
  discount : Option ℚ
  files : List (Nat × List FileUpload)
deriving DecidableEq, Repr

/-- Outcome of a mutation handler, by response status. -/
inductive MutationResult where
  | unprocessable (msg : String)
  | badRequest (msg : String)
  | conflict (msg : String)
  | serverError (msg : String)
  | created
deriving DecidableEq, Repr

/-- The files uploaded for `variants[i][image]`. -/
def filesForIndex (files : List (Nat × List FileUpload)) (i : Nat) : List FileUpload :=
  match files.find? (fun kv => kv.1 == i) with
  | some kv => kv.2
  | none => []

/-- Image records built for variant `i` from its uploads: the first one is
primary, alt text defaults to `Variant i Image j+1`. -/
def mkImages (i : Nat) (fs : List FileUpload) : List ImageRecord :=
  fs.enum.map (fun ji =>
    { url := ji.2.path, public_id := ji.2.filename,
      alt := "Variant " ++ toString i ++ " Image " ++ toString (ji.1 + 1),
      isPrimary := ji.1 == 0 })

/-- Positional image attachment (product.js:273-291): when any file was
uploaded, variant `i` receives the images of field `variants[i][image]`
(possibly `[]`); with no upload every variant's image list is empty. -/
def attachCreateImages (files : List (Nat × List FileUpload))
    (variants : List CreateVariantReq) : List (CreateVariantReq × List ImageRecord) :=
  if files.isEmpty then variants.map (fun v => (v, []))
  else variants.enum.map (fun iv => (iv.2, mkImages iv.1 (filesForIndex files iv.1)))

/-- The committed effect of the create's atomic unit: insert the document,
increment the category counter, increment each distinct referenced color
once. -/
def createApply (req : CreateReq) (category : String) (newProduct : ProductDoc)
    (s : Store) : Store :=
  let colorIds := (req.variants.filterMap (fun v => v.color)).dedup
  let s1 := { s with products := s.products ++ [newProduct] }
  let s2 := { s1 with categories := incCounter s1.categories category 1 }
  if colorIds.isEmpty then s2
  else { s2 with colors := incCounters s2.colors colorIds 1 }

/-- The inserted product document built from the request (product.js:303-320;
`pid` and `variantIds` model the driver's id generation). -/
def newProductOf (req : CreateReq) (name category brand : String) (bp : ℚ)
    (slug : String) (pid : String) (variantIds : Nat → String) : ProductDoc :=
  { _id := pid, name := name, slug := slug, category := category, brand := brand,
    base_price := bp, description := req.description,
    variants := (attachCreateImages req.files req.variants).enum.map (fun iv =>
      { _id := variantIds iv.1, color := iv.2.1.color, price := iv.2.1.price,
        sizes := iv.2.1.sizes, images := iv.2.2 }),
    isActive := req.isActive.getD true, isFeatured := req.isFeatured.getD false,
    isSoldOut := req.isSoldOut.getD false, isVisible := req.isVisible.getD true,
    tags := req.tags, collections := req.collections, discount := req.discount.getD 0 }

/-- The whole `createProduct` pipeline over the store. `txFails` injects a
failure inside the atomic unit (whose abort leaves the store unchanged). -/
def createProduct (req : CreateReq) (pid : String) (variantIds : Nat → String)
    (s : Store) (txFails : Bool) : MutationResult × Store :=
  match req.name, req.category, req.brand, req.base_price with
  | some name, some category, some brand, some bp =>
    if req.variants.isEmpty then
      (.unprocessable "At least one variant is required", s)
    else if (findCounter s.categories category).isNone then
      (.badRequest "Invalid category ID", s)
    else if (s.brands.find? (fun b => b._id == brand)).isNone then
      (.badRequest "Invalid brand ID", s)
    else if (s.colors.filter
        (fun cdoc => (req.variants.filterMap (fun v => v.color)).contains cdoc._id)).length
        ≠ (req.variants.filterMap (fun v => v.color)).length then
      (.badRequest "One or more colors are invalid", s)
    else
      if (s.products.find? (fun p => p.slug == slugOfName name)).isSome then
        (.conflict "Product already exists", s)
      else
        if ((attachCreateImages req.files req.variants).all (fun vi => vi.2.isEmpty))
            && !req.files.isEmpty then
          (.badRequest "Uploaded images must be assigned to a variant", s)
        else if txFails then
          (.serverError "Product creation failed", s)
        else
          (.created,
            createApply req category
              (newProductOf req name category brand bp (slugOfName name) pid variantIds) s)
  | _, _, _, _ =>
    (.unprocessable
      (if req.variants.isEmpty then "At least one variant is required" else "Validation error"),
      s)

/-- C7: a create request whose parsed variant list is empty is rejected as a
client error (422, 'At least one variant is required') whatever the other
fields hold, and the store is untouched — for any id generation and whether
or not the atomic unit would have failed. -/
theorem claim7_empty_variants_always_rejected (req : CreateReq) (pid : String)
    (variantIds : Nat → String) (s : Store) (txFails : Bool)
    (h : req.variants = []) :
    createProduct req pid variantIds s txFails
      = (.unprocessable "At least one variant is required", s) := by
  have hempty : req.variants.isEmpty = true := by
    rw [h]
    rfl
  unfold createProduct
  rcases req.name with _ | name
  · simp [hempty]
  · rcases req.category with _ | category
    · simp [hempty]
    · rcases req.brand with _ | brand
      · simp [hempty]
      · rcases req.base_price with _ | bp
        · simp [hempty]
        · simp [hempty]

/-- An otherwise-valid create request whose name collides on the slug. -/
def c7Req : CreateReq :=
  { name := some "New Tee", category := some "catC", brand := some "br1",
    base_price := some 12, description := none, variants := [],
    isActive := none, isFeatured := none, isSoldOut := none, isVisible := none,
    tags := [], collections := [], discount := none, files := [] }

/-- C7 witness: the empty-variants request is rejected with the variant
message and `c2Store` is returned unchanged, even with a would-fail unit. -/
theorem claim7_empty_variants_always_rejected_witness :
    createProduct c7Req "pNew" (fun _ => "vNew") c2Store true
      = (.unprocessable "At least one variant is required", c2Store) :=
  claim7_empty_variants_always_rejected c7Req "pNew" (fun _ => "vNew") c2Store true rfl

/-- C5: a create request whose name normalizes to a slug already held by an
existing product — with the earlier validations (required fields, variants,
category, brand, colors) passing so that the pipeline reaches the slug
check — is rejected with 409 Conflict, and the store (category counters,
color counters, products) is returned unchanged; the result is the same
whether or not the atomic unit would have failed, because the unit never
starts. -/
theorem claim5_duplicate_slug_conflict (req : CreateReq) (pid : String)
    (variantIds : Nat → String) (s : Store) (txFails : Bool)
    (name category brand : String) (bp : ℚ)
    (hname : req.name = some name) (hcat : req.category = some category)
    (hbrand : req.brand = some brand) (hbp : req.base_price = some bp)
    (hvar : req.variants.isEmpty = false)
    (hcatok : (findCounter s.categories category).isNone = false)
    (hbrandok : (s.brands.find? (fun b => b._id == brand)).isNone = false)
    (hcolorok : (s.colors.filter
        (fun cdoc => (req.variants.filterMap (fun v => v.color)).contains cdoc._id)).length
        = (req.variants.filterMap (fun v => v.color)).length)
    (hdup : ∃ p ∈ s.products, p.slug = slugOfName name) :
    createProduct req pid variantIds s txFails
      = (.conflict "Product already exists", s) := by
  have hfound : (s.products.find? (fun p => p.slug == slugOfName name)).isSome = true := by
    rw [List.find?_isSome]
    obtain ⟨p, hp, hps⟩ := hdup
    exact ⟨p, hp, by rw [hps]; exact beq_self_eq_true _⟩
  unfold createProduct
  rw [hname, hcat, hbrand, hbp]
  dsimp only
  rw [if_neg (by rw [hvar]; simp)]
  rw [if_neg (by rw [hcatok]; simp)]
  rw [if_neg (by rw [hbrandok]; simp)]
  rw [if_neg (by exact fun hne => hne hcolorok)]
  rw [if_pos hfound]

/-- A create request whose name "Cap" collides with the stored slug "cap"
of `c2Product`, all other validations passing against `c2Store`. -/
def c5Req : CreateReq :=
  { name := some "Cap", category := some "catC", brand := some "br1",
    base_price := some 12, description := none,
    variants := [{ color := some "colX", price := some 12, sizes := [] }],
    isActive := none, isFeatured := none, isSoldOut := none, isVisible := none,
    tags := [], collections := [], discount := none, files := [] }

/-- C5 witness: against `c2Store` (which holds slug "cap") the request is
rejected with Conflict and the store is unchanged, even with a would-fail
atomic unit. -/
theorem claim5_duplicate_slug_conflict_witness :
    createProduct c5Req "pNew" (fun _ => "vNew") c2Store true
      = (.conflict "Product already exists", c2Store) :=
  claim5_duplicate_slug_conflict c5Req "pNew" (fun _ => "vNew") c2Store true
    "Cap" "catC" "br1" 12 rfl rfl rfl rfl (by decide) (by decide) (by decide) (by decide)
    (by exact ⟨c2Product, by decide, by decide⟩)

end Catalog
